import Mathlib

/-!
Verification of the DeepSpeed `DeepSpeedLight` engine
(`deepspeed/pt/deepspeed_light.py`): a shallow embedding of the
training-step controller, the checkpoint naming/loading/saving logic,
the ZeRO-optimizer configuration checks, and the dense/sparse gradient
reduction paths, together with proofs of the specified properties.

Machine reals are modelled by `ℚ` (exact arithmetic); collective
operations (`all_reduce`, `all_gather`) are modelled from the global
point of view, taking the per-rank data as an explicit list/function.
Logging, timers and tensorboard writes are omitted: they touch none of
the modelled state.
-/

namespace DeepSpeedLight

/-! ## TrainingStepController: micro-step / boundary bookkeeping -/

/-- `DeepSpeedLight.is_gradient_accumulation_boundary` (lines 809-811):
`(self.micro_steps + 1) % self.gradient_accumulation_steps() == 0`. -/
def is_gradient_accumulation_boundary (micro_steps gas : Nat) : Bool :=
  (micro_steps + 1) % gas == 0

/-- The engine counters touched by `step()` (lines 824-933).
`lr_sched_steps` counts invocations of `self.lr_scheduler.step()` and
`optim_steps` counts invocations of `self.optimizer.step()`. -/
structure StepState where
  micro_steps : Nat
  global_steps : Nat
  skipped_steps : Nat
  lr_sched_steps : Nat
  optim_steps : Nat
deriving DecidableEq, Repr

/-- `DeepSpeedLight.step` (lines 824-933), restricted to the counter
state.  `overflowAttr` is `some b` when the wrapped optimizer has an
`overflow` attribute holding `b`, `none` when `hasattr` fails (then
`overflow = False`, line 858).  `hasSched` is `self.lr_scheduler is not
None`.  Gradient clipping, `zero_grad`, timers and progress reporting
mutate none of these counters and are elided. -/
def step (gas : Nat) (hasSched : Bool) (overflowAttr : Option Bool)
    (s : StepState) : StepState :=
  let s :=
    if is_gradient_accumulation_boundary s.micro_steps gas then
      -- self.optimizer.step()
      let s := { s with optim_steps := s.optim_steps + 1 }
      -- overflow = self.optimizer.overflow if hasattr else False
      let overflow := overflowAttr.getD false
      let s :=
        if overflow then
          { s with skipped_steps := s.skipped_steps + 1 }
        else
          if hasSched then { s with lr_sched_steps := s.lr_sched_steps + 1 }
          else s
      -- line 871: executed at every boundary, overflow or not
      { s with global_steps := s.global_steps + 1 }
    else s
  { s with micro_steps := s.micro_steps + 1 }

/-! ## Checkpoint file naming -/

/-- `os.path.join(a, b, c)` for a directory `a` and relative
components `b`, `c`. -/
def path_join3 (a b c : String) : String := a ++ "/" ++ b ++ "/" ++ c

/-- Python `'{:02d}'.format(n)` for a natural number: left-pad with
zeros to width 2. -/
def format02 (n : Nat) : String :=
  if n < 10 then "0" ++ toString n else toString n

/-- `DeepSpeedLight._get_rank_zero_ckpt_name` (lines 1102-1108). -/
def _get_rank_zero_ckpt_name (checkpoints_path tag : String)
    (mp_rank dp_rank : Nat) : String :=
  let filename := "zero_pp_rank_" ++ toString dp_rank
  path_join3 checkpoints_path tag
    (filename ++ "_mp_rank_" ++ format02 mp_rank ++ "optim_states.pt")

/-- `DeepSpeedLight._get_ckpt_name` (lines 1115-1121). -/
def _get_ckpt_name (checkpoints_path tag : String) (mp_rank : Nat) : String :=
  path_join3 checkpoints_path tag
    ("mp_rank_" ++ format02 mp_rank ++ "_model_states.pt")

/-- `DeepSpeedLight._get_mp_rank_zero_checkpoint_names`
(lines 1227-1236): one shard name per data-parallel rank
`0 ≤ dp_rank < dp_world_size`. -/
def _get_mp_rank_zero_checkpoint_names (load_dir tag : String)
    (mp_rank dp_world_size : Nat) : List String :=
  (List.range dp_world_size).map
    (fun dp_rank => _get_rank_zero_ckpt_name load_dir tag mp_rank dp_rank)

/-- Decidable equality for `Except`, so that concrete runs of the
fallible functions below can be checked by evaluation. -/
instance {ε α : Type} [DecidableEq ε] [DecidableEq α] :
    DecidableEq (Except ε α) := fun x y =>
  match x, y with
  | .ok a, .ok b =>
      if h : a = b then .isTrue (by rw [h])
      else .isFalse (by intro hh; injection hh with h2; exact h h2)
  | .error a, .error b =>
      if h : a = b then .isTrue (by rw [h])
      else .isFalse (by intro hh; injection hh with h2; exact h h2)
  | .ok _, .error _ => .isFalse (fun hh => Except.noConfusion hh)
  | .error _, .ok _ => .isFalse (fun hh => Except.noConfusion hh)

/-- An uncaught Python exception escaping one of the modelled
functions. -/
inductive PyError where
  /-- `NameError`: reference to a name that is not in scope. -/
  | nameError : PyError
  /-- `FileNotFoundError`: `torch.save` into an absent directory. -/
  | fileNotFoundError : PyError
deriving DecidableEq, Repr

/-- `DeepSpeedLight._get_all_zero_checkpoints` (lines 1254-1280).
`fs` is the set of existing paths (`os.path.exists`);
`dp_world_size` is `self.loaded_checkpoint_dp_world_size`, the
data-parallel world size recorded in the model-state checkpoint.
When shards are missing, the source reaches `logging.warn(...)` at
line 1267 — but the `logging` module is never imported (only `logger`
from `log_utils` is), so that call raises `NameError`: the computed
missing-path list is never reported and `return None` (line 1270)
never executes.  On success the source returns the per-shard
`optimizer_state_dict`s loaded from the files, modelled here by the
list of shard file names. -/
def _get_all_zero_checkpoints (fs : List String) (load_dir tag : String)
    (mp_rank dp_world_size : Nat) : Except PyError (List String) :=
  let zero_ckpt_names :=
    _get_mp_rank_zero_checkpoint_names load_dir tag mp_rank dp_world_size
  let invalid_zero_ckpt_paths :=
    zero_ckpt_names.filter (fun n => !(fs.contains n))
  if invalid_zero_ckpt_paths.length > 0 then
    -- line 1267: `logging.warn(f"... {invalid_zero_ckpt_paths} ...")`
    -- raises NameError before anything is logged or returned
    .error .nameError
  else
    .ok zero_ckpt_names

/-- `DeepSpeedLight._load_zero_checkpoint` (lines 1214-1225).  On
success the shard list is handed to `optimizer.load_state_dict`
(modelled by returning it, to be stored in the engine state).  The
`if zero_sd_list is None: return` guard (lines 1216-1217) is dead
code: `_get_all_zero_checkpoints` either returns the list or raises
`NameError`, and the exception propagates through this function. -/
def _load_zero_checkpoint (fs : List String) (load_dir tag : String)
    (mp_rank dp_world_size : Nat) :
    Except PyError (Option (List String)) :=
  match _get_all_zero_checkpoints fs load_dir tag mp_rank dp_world_size with
  | .error e => .error e
  | .ok zero_sd_list => .ok (some zero_sd_list)

/-! ## ZeRO optimizer configuration (`_configure_zero_optimizer`) -/

/-- Modelled from the spec: the numeric ZeRO stage constants
(`deepspeed_constants`, not under `src/`).  Spec §6 lists
"partitioning stage {0,1,2}"; §4.2 names stage 1 the optimizer-state
sharding stage and stage 2 the gradient + optimizer-state sharding
stage. -/
def ZERO_OPTIMIZATION_OPTIMIZER_STATES : Nat := 1

/-- Modelled from the spec: stage 2, gradient + optimizer-state
sharding. -/
def ZERO_OPTIMIZATION_GRADIENTS : Nat := 2

/-- Outcome of `DeepSpeedLight._configure_zero_optimizer`. -/
inductive ZeroConfigResult where
  /-- construction of the stage optimizer succeeds -/
  | ok : ZeroConfigResult
  /-- `assert self.zero_reduce_scatter()` fails (line 588) -/
  | stage1RequiresReduceScatter : ZeroConfigResult
  /-- `assert self.gradient_accumulation_steps() == 1` fails (line 601) -/
  | stage2NoGradAccumulation : ZeroConfigResult
  /-- `raise NotImplementedError` (line 620) -/
  | notImplemented : ZeroConfigResult
deriving DecidableEq, Repr

/-- `DeepSpeedLight._configure_zero_optimizer` (lines 583-622),
restricted to its control flow: which configurations are rejected at
construction time. -/
def _configure_zero_optimizer (zero_stage gas : Nat)
    (zero_reduce_scatter : Bool) : ZeroConfigResult :=
  if zero_stage = ZERO_OPTIMIZATION_OPTIMIZER_STATES then
    if zero_reduce_scatter then .ok else .stage1RequiresReduceScatter
  else if zero_stage = ZERO_OPTIMIZATION_GRADIENTS then
    if gas = 1 then .ok else .stage2NoGradAccumulation
  else .notImplemented

/-! ## Checkpoint load / save -/

/-- The contents of a model-state checkpoint file, as written by
`_save_checkpoint` (lines 1326-1353).  Opaque tensor/state payloads
(module weights, optimizer state, scheduler state, client extras) are
modelled by `Nat` tokens. -/
structure Checkpoint where
  module : Nat
  optimizer : Nat
  lr_scheduler : Nat
  csr_tensor_module_names : List String
  skipped_steps : Nat
  global_steps : Nat
  dp_world_size : Nat
  mp_world_size : Nat
  client_extra : Nat
deriving DecidableEq, Repr

/-- The engine state mutated by `load_checkpoint`.  `zero_shards` is
the partitioned optimizer's restored state (the shard list
`_load_zero_checkpoint` last handed to `optimizer.load_state_dict`). -/
structure EngineState where
  module_state : Nat
  optimizer_state : Nat
  lr_scheduler_state : Nat
  csr_tensor_module_names : List String
  global_steps : Nat
  skipped_steps : Nat
  loaded_checkpoint_mp_world_size : Nat
  loaded_checkpoint_dp_world_size : Nat
  zero_shards : Option (List String)
deriving DecidableEq, Repr

/-- `DeepSpeedLight._load_checkpoint` (lines 1160-1212).  `fs` maps
existing model-state paths to their contents; a missing path is
`os.path.exists = False`.  `zeroOpt` is `self.zero_optimization()`,
`hasSched` is `self.lr_scheduler is not None`.  The FP16 /
non-FP16 branches differ only in how the flag is forwarded to the
wrapped optimizer's `load_state_dict`, which is an external
collaborator; both are modelled as restoring `optimizer_state`.
Returns (`load_path`, `client_state`, new engine state). -/
def _load_checkpoint (fs : List (String × Checkpoint))
    (load_dir tag : String) (mp_rank : Nat)
    (zeroOpt hasSched load_lr_scheduler_states : Bool)
    (s : EngineState) : Option String × Option Nat × EngineState :=
  let load_path := _get_ckpt_name load_dir tag mp_rank
  match fs.lookup load_path with
  | none => (none, none, s)
  | some checkpoint =>
      let s := { s with module_state := checkpoint.module }
      let s :=
        if !zeroOpt then { s with optimizer_state := checkpoint.optimizer }
        else s
      let s :=
        if load_lr_scheduler_states && hasSched then
          { s with lr_scheduler_state := checkpoint.lr_scheduler }
        else s
      let s :=
        { s with
          csr_tensor_module_names := checkpoint.csr_tensor_module_names
          global_steps := checkpoint.global_steps
          skipped_steps := checkpoint.skipped_steps
          loaded_checkpoint_mp_world_size := checkpoint.mp_world_size
          loaded_checkpoint_dp_world_size := checkpoint.dp_world_size }
      (some load_path, some checkpoint.client_extra, s)

/-- `DeepSpeedLight.load_checkpoint` (lines 1128-1158).  `zfs` is the
set of existing zero-shard paths.  The zero checkpoint is loaded only
when `self.zero_optimization()` holds and the model-state load
returned a path; `_get_all_zero_checkpoints` reads the dp world size
recorded by `_load_checkpoint` into the engine state.  A `NameError`
raised on missing shards propagates out of this call. -/
def load_checkpoint (fs : List (String × Checkpoint)) (zfs : List String)
    (load_dir tag : String) (mp_rank : Nat)
    (zeroOpt hasSched load_lr_scheduler_states : Bool)
    (s : EngineState) :
    Except PyError (Option String × Option Nat × EngineState) :=
  let r := _load_checkpoint fs load_dir tag mp_rank
    zeroOpt hasSched load_lr_scheduler_states s
  let load_path := r.1
  let client_states := r.2.1
  let s1 := r.2.2
  if zeroOpt && load_path.isSome then
    match _load_zero_checkpoint zfs load_dir tag mp_rank
        s1.loaded_checkpoint_dp_world_size with
    | .error e => .error e
    | .ok zs => .ok (load_path, client_states, { s1 with zero_shards := zs })
  else
    .ok (load_path, client_states, s1)

/-- `DeepSpeedLight._create_checkpoint_file` (lines 1304-1313):
returns `False` when computing the name or creating the directory
raises, `True` otherwise.  `mkdirOk` models whether the `try` block
succeeds. -/
def _create_checkpoint_file (mkdirOk : Bool) : Bool :=
  if mkdirOk then
    true
  else
    false -- except: logger.error(...); return False

/-- `DeepSpeedLight._create_zero_checkpoint_files` (lines 1315-1324):
each rank in turn calls `_create_checkpoint_file` (barriers elided);
the local `success` is this rank's result. -/
def _create_zero_checkpoint_files (mkdirOk : Bool) : Bool :=
  _create_checkpoint_file mkdirOk

/-- `DeepSpeedLight._save_checkpoint` (lines 1326-1353): builds the
model-state record (the `Checkpoint` structure above) and writes it
with `torch.save(state, save_path)`, which raises `FileNotFoundError`
when the target directory is absent.  `dirExists` models whether
`_ensure_directory_exists` left the directory in place; the written
payload is immaterial to the control flow verified here. -/
def _save_checkpoint (dirExists : Bool) : Except PyError Unit :=
  if dirExists then .ok () else .error .fileNotFoundError

/-- `DeepSpeedLight._save_zero_checkpoint` (lines 1355-1359):
`torch.save` of the owned shard's optimizer state, raising
`FileNotFoundError` when the directory is absent. -/
def _save_zero_checkpoint (dirExists : Bool) : Except PyError Unit :=
  if dirExists then .ok () else .error .fileNotFoundError

/-- `DeepSpeedLight.save_checkpoint` (lines 1282-1302): the booleans
returned by `_create_checkpoint_file` / `_create_zero_checkpoint_files`
are discarded, the actual `_save_checkpoint` / `_save_zero_checkpoint`
writes follow, and the function ends with `return True` — unless one
of the writes raises, in which case the exception propagates and
`return True` is never reached. -/
def save_checkpoint (save_non_zero_checkpoint save_zero_checkpoint : Bool)
    (mkdirNonZeroOk mkdirZeroOk : Bool) : Except PyError Bool :=
  let r1 : Except PyError Unit :=
    if save_non_zero_checkpoint then
      let _ := _create_checkpoint_file mkdirNonZeroOk -- result discarded
      _save_checkpoint mkdirNonZeroOk
    else .ok ()
  match r1 with
  | .error e => .error e
  | .ok () =>
      let r2 : Except PyError Unit :=
        if save_zero_checkpoint then
          let _ := _create_zero_checkpoint_files mkdirZeroOk -- discarded
          _save_zero_checkpoint mkdirZeroOk
        else .ok ()
      match r2 with
      | .error e => .error e
      | .ok () => .ok true

/-! ## Dense gradient reduction

A tensor on one rank is a `List ℚ`.  A `dist.all_reduce` with the
default sum op, seen globally, replaces every rank's buffer by the
pointwise sum of all ranks' buffers; `pointwiseSum` is that sum. -/

/-- Pointwise addition of two equally-shaped buffers. -/
def zipAdd (a b : List ℚ) : List ℚ := List.zipWith (· + ·) a b

/-- Pointwise sum of the per-rank buffers (the result every rank holds
after `dist.all_reduce`). -/
def pointwiseSum : List (List ℚ) → List ℚ
  | [] => []
  | [x] => x
  | x :: y :: rest => zipAdd x (pointwiseSum (y :: rest))

/-- `DeepSpeedLight.allreduce_bucket` (lines 962-987), from the global
point of view: `bucket` holds, for each data-parallel rank, that
rank's list of gradient tensors (line 963 `flatten` is `List.flatten`).
`f` is `self.gradient_predivide_factor()`, `W` is
`self.dp_world_size`, `gradient_average` is `self.gradient_average`,
`postscale` is `self.postscale_gradients()`.  The
`allreduce_always_fp32` upcast/downcast is the identity in exact
arithmetic.  Returns the buffer every rank holds afterwards. -/
def allreduce_bucket (postscale gradient_average : Bool) (f W : ℚ)
    (bucket : List (List (List ℚ))) : List ℚ :=
  let tensor := bucket.map List.flatten
  if postscale then
    let tensor_to_allreduce :=
      if f ≠ 1 then tensor.map (List.map (fun x => x * (1 / f)))
      else tensor
    let summed := pointwiseSum tensor_to_allreduce
    if gradient_average then
      if f ≠ W then summed.map (fun x => x * (f / W)) else summed
    else summed
  else
    pointwiseSum (tensor.map (List.map (fun x => x / W)))

/-- A data-parallel replicated tensor: rank index ↦ that rank's local
copy (only ranks `< W` are meaningful). -/
abbrev DTensor := Nat → List ℚ

/-- `tensor.numel()` of a replicated tensor, read off rank 0's copy. -/
def tensor_numel (p : DTensor) : Nat := (p 0).length

/-- The per-rank views of a bucket of replicated tensors, as handed to
`allreduce_bucket` by `allreduce_and_copy`. -/
def bucket_views (W : Nat) (bucket : List DTensor) : List (List (List ℚ)) :=
  (List.range W).map (fun r => bucket.map (fun p => p r))

/-- `unflatten(flat, like)` (the inverse of `flatten`): split `flat`
into consecutive chunks of the given sizes. -/
def unflatten_sizes : List ℚ → List Nat → List (List ℚ)
  | _, [] => []
  | flat, n :: ns => flat.take n :: unflatten_sizes (flat.drop n) ns

/-- `DeepSpeedLight.allreduce_and_copy` (lines 989-992): all-reduce
the flattened small bucket and scatter the synced result back into the
original tensor storages; the returned list holds the tensors' final
(replicated) values. -/
def allreduce_and_copy (W : Nat) (postscale gradient_average : Bool)
    (f : ℚ) (small_bucket : List DTensor) : List (List ℚ) :=
  let allreduced :=
    allreduce_bucket postscale gradient_average f (W : ℚ)
      (bucket_views W small_bucket)
  unflatten_sizes allreduced (small_bucket.map tensor_numel)

/-- The loop of `DeepSpeedLight.allreduce_no_retain` (lines 994-1005):
accumulate tensors into `small_bucket`, flush when the element count
exceeds `numel_per_bucket`, and flush the final non-empty bucket.  The
result concatenates the flushed buckets' outputs in order. -/
def allreduce_no_retain_go (W : Nat) (postscale gradient_average : Bool)
    (f : ℚ) (numel_per_bucket : Nat) :
    List DTensor → List DTensor → Nat → List (List ℚ)
  | [], small_bucket, _ =>
      if small_bucket.isEmpty then []
      else allreduce_and_copy W postscale gradient_average f small_bucket
  | t :: rest, small_bucket, numel =>
      let small_bucket' := small_bucket ++ [t]
      let numel' := numel + tensor_numel t
      if numel_per_bucket < numel' then
        allreduce_and_copy W postscale gradient_average f small_bucket' ++
          allreduce_no_retain_go W postscale gradient_average f
            numel_per_bucket rest [] 0
      else
        allreduce_no_retain_go W postscale gradient_average f
          numel_per_bucket rest small_bucket' numel'

/-- `DeepSpeedLight.allreduce_no_retain` (lines 994-1005). -/
def allreduce_no_retain (W : Nat) (postscale gradient_average : Bool)
    (f : ℚ) (bucket : List DTensor) (numel_per_bucket : Nat) :
    List (List ℚ) :=
  allreduce_no_retain_go W postscale gradient_average f
    numel_per_bucket bucket [] 0

/-- The naive reduction the spec compares against: one collective call
per tensor (each tensor is its own bucket). -/
def naive_reduce (W : Nat) (postscale gradient_average : Bool) (f : ℚ)
    (bucket : List DTensor) : List (List ℚ) :=
  (bucket.map
    (fun t => allreduce_and_copy W postscale gradient_average f [t])).flatten

/-! ## Sparse (CSR) gradient reduction -/

/-- `DeepSpeedLight.csr_all_gather` (lines 1061-1088), from the global
point of view: `contribs` holds each rank's variable-length
contribution (a list of rows; rows are scalars in the `dim == 1`
branch and fixed-width rows in the `dim == 2` branch — both branches
perform the same row-level computation, so the row type `α` is
abstract and `z` is the zero row used for padding).  `all_sizes` is
the separately all-gathered list of true lengths; each contribution is
padded to the observed maximum and, after the gather, device `i`'s
slot is cut back to `all_sizes[i]` rows via `index_select`. -/
def csr_all_gather {α : Type} (z : α) (contribs : List (List α)) :
    List (List α) :=
  let all_sizes := contribs.map List.length
  let max_size := all_sizes.foldr max 0
  let padded := contribs.map (fun value =>
    let fill_size := max_size - value.length
    if 0 < fill_size then value ++ List.replicate fill_size z else value)
  (padded.zip all_sizes).map (fun t => t.1.take t.2)

/-- `DeepSpeedLight.csr_allreduce` (lines 1050-1059), globally:
each rank pre-divides its values by the data-parallel world size, the
indices and values are exchanged with `csr_all_gather`, and the
results are concatenated (`torch.cat`).  Every rank ends with the same
(indices, values) pair, returned here. -/
def csr_allreduce (W : ℚ) (indices : List (List ℤ))
    (values : List (List ℚ)) : List ℤ × List ℚ :=
  let values' := values.map (List.map (fun x => x / W))
  ((csr_all_gather 0 indices).flatten, (csr_all_gather 0 values').flatten)

/-! ## Helper lemmas -/

/-- Stripping a padded contribution with its true length recovers the
contribution, whatever the target size `m`. -/
theorem pad_take {α : Type} (z : α) (m : Nat) (v : List α) :
    (if 0 < m - v.length then v ++ List.replicate (m - v.length) z
     else v).take v.length = v := by
  split
  · exact List.take_left v _
  · exact List.take_length v

/-- `csr_all_gather` returns every rank's exact contribution. -/
theorem csr_all_gather_id {α : Type} (z : α) (contribs : List (List α)) :
    csr_all_gather z contribs = contribs := by
  unfold csr_all_gather
  simp only [List.zip_map', List.map_map, Function.comp]
  exact (List.map_congr_left (fun v _ => pad_take z _ v)).trans
    (List.map_id contribs)

/-! ## Claim theorems -/

/-- C4: for every micro-step count `m` and accumulation-step count
`K ≥ 1`, `is_gradient_accumulation_boundary` returns `true` iff
`(m + 1) % K = 0`; with `K = 1` it is `true` at every micro-step. -/
theorem C4_boundary_iff (m K : Nat) (hK : 1 ≤ K) :
    (is_gradient_accumulation_boundary m K = true ↔ (m + 1) % K = 0) ∧
    (K = 1 → is_gradient_accumulation_boundary m K = true) := by
  refine ⟨by simp [is_gradient_accumulation_boundary], ?_⟩
  intro h
  subst h
  simp [is_gradient_accumulation_boundary, Nat.mod_one]

/-- C4 witness: concrete instance at `m = 3`, `K = 2`. -/
theorem C4_boundary_iff_witness :
    1 ≤ 2 ∧
    ((is_gradient_accumulation_boundary 3 2 = true ↔ (3 + 1) % 2 = 0) ∧
     (2 = 1 → is_gradient_accumulation_boundary 3 2 = true)) :=
  ⟨by decide, C4_boundary_iff 3 2 (by decide)⟩

/-- C1 counterexample: at a gradient-accumulation boundary
(`micro_steps = 0`, `K = 1`) with the wrapped optimizer's overflow
flag set, `skipped_steps` does increment by 1 and the scheduler is not
advanced, but `global_steps` also increments (line 871 sits outside
the overflow branch), contradicting the claim that it stays put. -/
theorem C1_counterexample :
    is_gradient_accumulation_boundary 0 1 = true ∧
    (step 1 true (some true) ⟨0, 0, 0, 0, 0⟩).skipped_steps = 1 ∧
    (step 1 true (some true) ⟨0, 0, 0, 0, 0⟩).lr_sched_steps = 0 ∧
    ¬ (step 1 true (some true) ⟨0, 0, 0, 0, 0⟩).global_steps = 0 := by
  decide

/-- C1 amended: at a boundary, when the overflow flag is set,
`skipped_steps` increments by exactly 1 and the scheduler's `step()`
is not invoked, but `global_steps` nevertheless increments by exactly
1; when the flag is not set, the scheduler is advanced (when present)
and `global_steps` increments by exactly 1. -/
theorem C1_step_overflow_bookkeeping (gas : Nat) (hasSched : Bool)
    (ov : Option Bool) (s : StepState)
    (hb : is_gradient_accumulation_boundary s.micro_steps gas = true) :
    (ov.getD false = true →
      (step gas hasSched ov s).skipped_steps = s.skipped_steps + 1 ∧
      (step gas hasSched ov s).lr_sched_steps = s.lr_sched_steps ∧
      (step gas hasSched ov s).global_steps = s.global_steps + 1) ∧
    (ov.getD false = false →
      (step gas hasSched ov s).skipped_steps = s.skipped_steps ∧
      (hasSched = true →
        (step gas hasSched ov s).lr_sched_steps = s.lr_sched_steps + 1) ∧
      (step gas hasSched ov s).global_steps = s.global_steps + 1) := by
  constructor
  · intro hov
    simp [step, hb, hov]
  · intro hov
    cases hasSched <;> simp [step, hb, hov]

/-- C1 amended witness: concrete no-overflow boundary step. -/
theorem C1_step_overflow_bookkeeping_witness :
    is_gradient_accumulation_boundary 0 1 = true ∧
    (((some false).getD false) = true →
      (step 1 true (some false) ⟨0, 0, 0, 0, 0⟩).skipped_steps = 0 + 1 ∧
      (step 1 true (some false) ⟨0, 0, 0, 0, 0⟩).lr_sched_steps = 0 ∧
      (step 1 true (some false) ⟨0, 0, 0, 0, 0⟩).global_steps = 0 + 1) ∧
    (((some false).getD false) = false →
      (step 1 true (some false) ⟨0, 0, 0, 0, 0⟩).skipped_steps = 0 ∧
      (true = true →
        (step 1 true (some false) ⟨0, 0, 0, 0, 0⟩).lr_sched_steps = 0 + 1) ∧
      (step 1 true (some false) ⟨0, 0, 0, 0, 0⟩).global_steps = 0 + 1) :=
  ⟨by decide,
   C1_step_overflow_bookkeeping 1 true (some false) ⟨0, 0, 0, 0, 0⟩ (by decide)⟩

/-- C5: `_configure_zero_optimizer` rejects stage 1 without
reduce-scatter and stage 2 with accumulation steps above 1, at
configuration time; every allowed combination constructs
successfully. -/
theorem C5_zero_config_checks (stage gas : Nat) (rs : Bool)
    (hgas : 1 ≤ gas) :
    (stage = ZERO_OPTIMIZATION_OPTIMIZER_STATES → rs = false →
      _configure_zero_optimizer stage gas rs = .stage1RequiresReduceScatter) ∧
    (stage = ZERO_OPTIMIZATION_GRADIENTS → 1 < gas →
      _configure_zero_optimizer stage gas rs = .stage2NoGradAccumulation) ∧
    (stage = ZERO_OPTIMIZATION_OPTIMIZER_STATES → rs = true →
      _configure_zero_optimizer stage gas rs = .ok) ∧
    (stage = ZERO_OPTIMIZATION_GRADIENTS → gas = 1 →
      _configure_zero_optimizer stage gas rs = .ok) := by
  refine ⟨?_, ?_, ?_, ?_⟩ <;> intro h1 h2 <;> subst h1
  · simp [_configure_zero_optimizer, h2]
  · have : gas ≠ 1 := by omega
    simp [_configure_zero_optimizer, ZERO_OPTIMIZATION_GRADIENTS,
      ZERO_OPTIMIZATION_OPTIMIZER_STATES, this]
  · simp [_configure_zero_optimizer, h2]
  · simp [_configure_zero_optimizer, ZERO_OPTIMIZATION_GRADIENTS,
      ZERO_OPTIMIZATION_OPTIMIZER_STATES, h2]

/-- C5 witness: stage 2 with `gas = 2` is rejected. -/
theorem C5_zero_config_checks_witness :
    1 ≤ 2 ∧
    ((2 = ZERO_OPTIMIZATION_OPTIMIZER_STATES → true = false →
      _configure_zero_optimizer 2 2 true = .stage1RequiresReduceScatter) ∧
    (2 = ZERO_OPTIMIZATION_GRADIENTS → 1 < 2 →
      _configure_zero_optimizer 2 2 true = .stage2NoGradAccumulation) ∧
    (2 = ZERO_OPTIMIZATION_OPTIMIZER_STATES → true = true →
      _configure_zero_optimizer 2 2 true = .ok) ∧
    (2 = ZERO_OPTIMIZATION_GRADIENTS → 2 = 1 →
      _configure_zero_optimizer 2 2 true = .ok)) :=
  ⟨by decide, C5_zero_config_checks 2 2 true (by decide)⟩

/-- C3 counterexample: the produced paths carry a `.pt` extension, so
they are not bit-exactly the extension-less names the claim states
(concrete instance: dir `ckpt`, tag `T`, `MP = 0`, `DP = 3`). -/
theorem C3_counterexample :
    ¬ (_get_ckpt_name "ckpt" "T" 0 = "ckpt/T/mp_rank_00_model_states" ∧
       _get_rank_zero_ckpt_name "ckpt" "T" 0 3 =
         "ckpt/T/zero_pp_rank_3_mp_rank_00optim_states") := by
  decide

/-- C3 amended: the model-state path is exactly
`<dir>/T/mp_rank_{MP:02}_model_states.pt` and the optimizer-shard path
exactly `<dir>/T/zero_pp_rank_{DP}_mp_rank_{MP:02}optim_states.pt` —
the spec's layout plus the `.pt` extension; in particular neither
equals the extension-less name of the spec's layout block. -/
theorem C3_checkpoint_paths (dir tag : String) (mp dp : Nat) :
    _get_ckpt_name dir tag mp =
      dir ++ "/" ++ tag ++ "/" ++
        ("mp_rank_" ++ (if mp < 10 then "0" ++ toString mp else toString mp)
          ++ "_model_states.pt") ∧
    _get_rank_zero_ckpt_name dir tag mp dp =
      dir ++ "/" ++ tag ++ "/" ++
        ("zero_pp_rank_" ++ toString dp ++ "_mp_rank_" ++
          (if mp < 10 then "0" ++ toString mp else toString mp)
          ++ "optim_states.pt") ∧
    _get_ckpt_name dir tag mp ≠
      dir ++ "/" ++ tag ++ "/" ++
        ("mp_rank_" ++ (if mp < 10 then "0" ++ toString mp else toString mp)
          ++ "_model_states") ∧
    _get_rank_zero_ckpt_name dir tag mp dp ≠
      dir ++ "/" ++ tag ++ "/" ++
        ("zero_pp_rank_" ++ toString dp ++ "_mp_rank_" ++
          (if mp < 10 then "0" ++ toString mp else toString mp)
          ++ "optim_states") := by
  refine ⟨rfl, rfl, ?_, ?_⟩
  · intro h
    have hlen := congrArg String.length h
    simp only [_get_ckpt_name, path_join3, format02,
      String.length_append] at hlen
    have e1 : "_model_states.pt".length = 16 := rfl
    have e2 : "_model_states".length = 13 := rfl
    rw [e1, e2] at hlen
    omega
  · intro h
    have hlen := congrArg String.length h
    simp only [_get_rank_zero_ckpt_name, path_join3, format02,
      String.length_append] at hlen
    have e3 : "optim_states.pt".length = 15 := rfl
    have e4 : "optim_states".length = 12 := rfl
    rw [e3, e4] at hlen
    omega

/-- C2 (code bug): when at least one expected optimizer-shard file
(one per save-time data-parallel rank, for the caller's model-parallel
rank) is absent, the branch that should abort with the explicit list
of missing paths instead raises `NameError` — `logging.warn` at line
1267 refers to the `logging` module, which is never imported (every
other call site uses `logger`) — so nothing is reported, the optimizer
state is not restored, and the uncaught exception propagates through
`_load_zero_checkpoint`. -/
theorem C2_missing_shard_raises (fs : List String) (dir tag : String)
    (mp dpws : Nat)
    (hmiss : ((_get_mp_rank_zero_checkpoint_names dir tag mp dpws).filter
        (fun n => !(fs.contains n))) ≠ []) :
    _get_all_zero_checkpoints fs dir tag mp dpws =
      .error .nameError ∧
    _load_zero_checkpoint fs dir tag mp dpws = .error .nameError := by
  have h1 : _get_all_zero_checkpoints fs dir tag mp dpws =
      .error .nameError := by
    unfold _get_all_zero_checkpoints
    rw [if_pos (List.length_pos.mpr hmiss)]
  refine ⟨h1, ?_⟩
  unfold _load_zero_checkpoint
  rw [h1]

/-- C2 witness: empty filesystem, one expected shard. -/
theorem C2_missing_shard_raises_witness :
    ((_get_mp_rank_zero_checkpoint_names "d" "T" 0 1).filter
        (fun n => !(([] : List String).contains n))) ≠ [] ∧
    (_get_all_zero_checkpoints [] "d" "T" 0 1 = .error .nameError ∧
    _load_zero_checkpoint [] "d" "T" 0 1 = .error .nameError) :=
  ⟨by decide, C2_missing_shard_raises [] "d" "T" 0 1 (by decide)⟩

/-- C9: when the model-state file for the caller's model-parallel rank
does not exist, `load_checkpoint` returns a `none` load path (and no
client state) and the engine state is unchanged — module weights,
optimizer, scheduler, `global_steps` and `skipped_steps` included. -/
theorem C9_load_not_found (fs : List (String × Checkpoint))
    (zfs : List String) (dir tag : String) (mp : Nat)
    (zeroOpt hasSched loadSched : Bool) (s : EngineState)
    (habs : fs.lookup (_get_ckpt_name dir tag mp) = none) :
    load_checkpoint fs zfs dir tag mp zeroOpt hasSched loadSched s =
      .ok (none, none, s) := by
  simp [load_checkpoint, _load_checkpoint, habs]

/-- C9 witness: empty filesystem. -/
theorem C9_load_not_found_witness :
    ([] : List (String × Checkpoint)).lookup (_get_ckpt_name "d" "T" 0)
      = none ∧
    load_checkpoint [] [] "d" "T" 0 true true true
        ⟨1, 2, 3, ["e"], 4, 5, 6, 7, none⟩ =
      .ok (none, none, ⟨1, 2, 3, ["e"], 4, 5, 6, 7, none⟩) :=
  ⟨rfl, C9_load_not_found [] [] "d" "T" 0 true true true
    ⟨1, 2, 3, ["e"], 4, 5, 6, 7, none⟩ rfl⟩

/-- C10 counterexample: with the non-zero checkpoint enabled and
directory creation failing, `_create_checkpoint_file` returns `False`
(discarded), but `torch.save` in `_save_checkpoint` then raises
`FileNotFoundError`, so `save_checkpoint` does not return `True` — it
propagates the exception, refuting "always returns True, for every
input". -/
theorem C10_counterexample :
    _create_checkpoint_file false = false ∧
    save_checkpoint true false false false = .error .fileNotFoundError ∧
    ¬ save_checkpoint true false false false = .ok true := by
  decide

/-- C10 amended: the `False` result of `_create_checkpoint_file` is
discarded, so a directory-creation failure is never reported to the
caller through the return value — `save_checkpoint` never returns
`False`, and whenever the enabled writes succeed it returns `True`;
but when the directory is genuinely missing the subsequent
`torch.save` raises, so the call propagates an exception instead of
returning `True`. -/
theorem C10_save_checkpoint_returns
    (save_non_zero save_zero mkdirNonZeroOk mkdirZeroOk : Bool) :
    save_checkpoint save_non_zero save_zero mkdirNonZeroOk mkdirZeroOk
      ≠ .ok false ∧
    save_checkpoint save_non_zero save_zero true true = .ok true ∧
    _create_checkpoint_file false = false := by
  cases save_non_zero <;> cases save_zero <;>
    cases mkdirNonZeroOk <;> cases mkdirZeroOk <;>
    exact ⟨by decide, by decide, rfl⟩

/-- C7: the sparse all-gather returns every rank's exact contribution
(padding to the maximum observed length is stripped back using the
separately gathered true lengths), so the concatenated result is the
exact multiset union of all ranks' contributions, and `csr_allreduce`
concatenates all ranks' indices and their values pre-divided by the
world size — no padding rows appear and no contributed rows are
lost. -/
theorem C7_csr_all_gather_exact :
    ∀ (contribs : List (List ℚ)),
      csr_all_gather (0 : ℚ) contribs = contribs ∧
      (csr_all_gather (0 : ℚ) contribs).flatten = contribs.flatten ∧
      ∀ (W : ℚ) (indices : List (List ℤ)) (values : List (List ℚ)),
        csr_allreduce W indices values =
          (indices.flatten,
           (values.map (List.map (fun x => x / W))).flatten) := by
  intro contribs
  refine ⟨csr_all_gather_id 0 contribs, by rw [csr_all_gather_id], ?_⟩
  intro W indices values
  simp only [csr_allreduce, csr_all_gather_id]

/-! ## Dense reduction lemmas -/

theorem zipAdd_map_mul (c : ℚ) (a b : List ℚ) :
    zipAdd (a.map (fun x => x * c)) (b.map (fun x => x * c)) =
      (zipAdd a b).map (fun x => x * c) := by
  unfold zipAdd
  induction a generalizing b with
  | nil => simp
  | cons x xs ih =>
    cases b with
    | nil => simp
    | cons y ys => simp [ih, add_mul]

/-- Scaling every rank's buffer scales the all-reduced sum. -/
theorem pointwiseSum_map_mul (c : ℚ) (l : List (List ℚ)) :
    pointwiseSum (l.map (List.map (fun x => x * c))) =
      (pointwiseSum l).map (fun x => x * c) := by
  induction l with
  | nil => rfl
  | cons x xs ih =>
    cases xs with
    | nil => rfl
    | cons y ys =>
      show zipAdd (x.map _) (pointwiseSum ((y :: ys).map _)) =
        (zipAdd x (pointwiseSum (y :: ys))).map _
      rw [ih, zipAdd_map_mul]

/-- Closed form of `allreduce_bucket` with gradient averaging on:
whatever the mode and predivide factor, the result is the pointwise
sum over the ranks divided by the world size. -/
theorem allreduce_bucket_avg (postscale : Bool) (f W : ℚ) (hf : f ≠ 0)
    (hW : W ≠ 0) (bucket : List (List (List ℚ))) :
    allreduce_bucket postscale true f W bucket =
      (pointwiseSum (bucket.map List.flatten)).map (fun x => x / W) := by
  unfold allreduce_bucket
  cases postscale with
  | false =>
    simp only [Bool.false_eq_true, if_false, div_eq_mul_inv]
    exact pointwiseSum_map_mul W⁻¹ (bucket.map List.flatten)
  | true =>
    simp only [if_true]
    split_ifs with h1 h2 h3
    · -- f ≠ W, f ≠ 1: premultiplied by 1/f, rescaled by f/W
      rw [pointwiseSum_map_mul, List.map_map]
      refine List.map_congr_left (fun x _ => ?_)
      show x * (1 / f) * (f / W) = x / W
      field_simp
    · -- f ≠ W, f = 1: no premultiply, rescaled by f/W = 1/W
      push_neg at h2
      subst h2
      refine List.map_congr_left (fun x _ => ?_)
      exact mul_one_div x W
    · -- f = W, f ≠ 1: premultiplied by 1/f = 1/W, rescale skipped
      push_neg at h1
      rw [pointwiseSum_map_mul]
      refine List.map_congr_left (fun x _ => ?_)
      show x * (1 / f) = x / W
      rw [h1, mul_one_div]
    · -- f = W = 1: untouched, and dividing by W = 1 is the identity
      push_neg at h1 h3
      rw [← h1, h3]
      simp

/-- C6: for every dense bucket, world size `W ≥ 1` and nonzero
predivide factor `f`, with gradient averaging enabled,
`allreduce_bucket` returns the elementwise sum of the bucket over all
`W` ranks divided by `W`, in postscale mode (premultiply by `1/f`,
sum, rescale by `f/W` unless `f = W`) and in prescale mode (divide by
`W` locally, then sum) alike. -/
theorem C6_allreduce_bucket_averages (bucket : List (List (List ℚ)))
    (Wn : Nat) (hW : 1 ≤ Wn) (hlen : bucket.length = Wn) (f : ℚ)
    (hf : f ≠ 0) :
    allreduce_bucket true true f (Wn : ℚ) bucket =
      (pointwiseSum (bucket.map List.flatten)).map
        (fun x => x / (Wn : ℚ)) ∧
    allreduce_bucket false true f (Wn : ℚ) bucket =
      (pointwiseSum (bucket.map List.flatten)).map
        (fun x => x / (Wn : ℚ)) :=
  have hWq : (Wn : ℚ) ≠ 0 := Nat.cast_ne_zero.mpr (by omega)
  ⟨allreduce_bucket_avg true f _ hf hWq bucket,
   allreduce_bucket_avg false f _ hf hWq bucket⟩

/-- C6 witness: two ranks, bucket of two tensors, `f = 4`, `W = 2`. -/
theorem C6_allreduce_bucket_averages_witness :
    1 ≤ 2 ∧ ([[[1, 2], [3]], [[5, 6], [7]]] :
        List (List (List ℚ))).length = 2 ∧ (4 : ℚ) ≠ 0 ∧
    (allreduce_bucket true true 4 ((2 : Nat) : ℚ)
        [[[1, 2], [3]], [[5, 6], [7]]] =
      (pointwiseSum ([[[1, 2], [3]], [[5, 6], [7]]].map List.flatten)).map
        (fun x => x / ((2 : Nat) : ℚ)) ∧
    allreduce_bucket false true 4 ((2 : Nat) : ℚ)
        [[[1, 2], [3]], [[5, 6], [7]]] =
      (pointwiseSum ([[[1, 2], [3]], [[5, 6], [7]]].map List.flatten)).map
        (fun x => x / ((2 : Nat) : ℚ))) :=
  ⟨by decide, by decide, by decide,
   C6_allreduce_bucket_averages [[[1, 2], [3]], [[5, 6], [7]]] 2
     (by decide) (by decide) 4 (by decide)⟩

/-! ## Bucketing lemmas (C8) -/

theorem zipAdd_append (a b c d : List ℚ) (h : a.length = c.length) :
    zipAdd (a ++ b) (c ++ d) = zipAdd a c ++ zipAdd b d :=
  List.zipWith_append _ a b c d h

theorem pointwiseSum_length (k : Nat) (l : List (List ℚ)) (hne : l ≠ [])
    (h : ∀ x ∈ l, x.length = k) : (pointwiseSum l).length = k := by
  induction l with
  | nil => exact absurd rfl hne
  | cons x xs ih =>
    cases xs with
    | nil => exact h x (List.mem_cons_self x [])
    | cons y ys =>
      have hx : x.length = k := h x (List.mem_cons_self _ _)
      have hr : (pointwiseSum (y :: ys)).length = k :=
        ih (List.cons_ne_nil y ys)
          (fun z hz => h z (List.mem_cons_of_mem _ hz))
      show (zipAdd x (pointwiseSum (y :: ys))).length = k
      simp [zipAdd, List.length_zipWith, hx, hr]

/-- An all-reduce over per-rank concatenations is the concatenation of
the all-reduces, provided the left parts are equally shaped across
ranks. -/
theorem pointwiseSum_append {α : Type} (rs : List α) (a b : α → List ℚ)
    (k : Nat) (ha : ∀ r ∈ rs, (a r).length = k) :
    pointwiseSum (rs.map (fun r => a r ++ b r)) =
      pointwiseSum (rs.map a) ++ pointwiseSum (rs.map b) := by
  induction rs with
  | nil => rfl
  | cons r rest ih =>
    cases rest with
    | nil => rfl
    | cons r2 rest2 =>
      have hlen2 : (pointwiseSum ((r2 :: rest2).map a)).length = k := by
        refine pointwiseSum_length k _ (by simp) ?_
        intro x hx
        rw [List.mem_map] at hx
        obtain ⟨r', hr', rfl⟩ := hx
        exact ha r' (List.mem_cons_of_mem _ hr')
      show zipAdd (a r ++ b r)
          (pointwiseSum ((r2 :: rest2).map (fun r => a r ++ b r))) =
        zipAdd (a r) (pointwiseSum ((r2 :: rest2).map a)) ++
          zipAdd (b r) (pointwiseSum ((r2 :: rest2).map b))
      rw [ih (fun x hx => ha x (List.mem_cons_of_mem _ hx))]
      refine zipAdd_append _ _ _ _ ?_
      rw [ha r (List.mem_cons_self _ _), hlen2]

theorem views_flatten (W : Nat) (bucket : List DTensor) :
    (bucket_views W bucket).map List.flatten =
      (List.range W).map (fun r => (bucket.map (fun p => p r)).flatten) := by
  unfold bucket_views
  rw [List.map_map]
  rfl

/-- Peeling the first tensor off a bucket splits the all-reduced flat
buffer at that tensor's element count. -/
theorem psum_views_cons (W : Nat) (p : DTensor) (rest : List DTensor)
    (hp : ∀ r < W, (p r).length = tensor_numel p) :
    pointwiseSum ((bucket_views W (p :: rest)).map List.flatten) =
      pointwiseSum ((List.range W).map p) ++
        pointwiseSum ((bucket_views W rest).map List.flatten) := by
  rw [views_flatten, views_flatten]
  exact pointwiseSum_append (List.range W) p
    (fun r => (rest.map (fun q => q r)).flatten) (tensor_numel p)
    (fun r hr => hp r (List.mem_range.mp hr))

theorem rank_sum_length (W : Nat) (hW : 1 ≤ W) (p : DTensor)
    (hp : ∀ r < W, (p r).length = tensor_numel p) :
    (pointwiseSum ((List.range W).map p)).length = tensor_numel p := by
  refine pointwiseSum_length _ _ ?_ ?_
  · simp only [ne_eq, List.map_eq_nil_iff, List.range_eq_nil]
    omega
  · intro x hx
    rw [List.mem_map] at hx
    obtain ⟨r, hr, rfl⟩ := hx
    exact hp r (List.mem_range.mp hr)

/-- A one-tensor bucket reduces to that tensor's cross-rank average. -/
theorem allreduce_and_copy_single (W : Nat) (hW : 1 ≤ W) (post : Bool)
    (f : ℚ) (hf : f ≠ 0) (p : DTensor)
    (hp : ∀ r < W, (p r).length = tensor_numel p) :
    allreduce_and_copy W post true f [p] =
      [(pointwiseSum ((List.range W).map p)).map (fun x => x / (W : ℚ))] := by
  have hWq : ((W : Nat) : ℚ) ≠ 0 := Nat.cast_ne_zero.mpr (by omega)
  unfold allreduce_and_copy
  rw [allreduce_bucket_avg post f _ hf hWq, views_flatten]
  simp only [List.map_cons, List.map_nil, List.flatten_cons,
    List.flatten_nil, List.append_nil]
  have hA : ((pointwiseSum ((List.range W).map (fun r => p r))).map
      (fun x => x / (W : ℚ))).length = tensor_numel p := by
    rw [List.length_map]
    exact rank_sum_length W hW p hp
  show ((pointwiseSum ((List.range W).map (fun r => p r))).map
      (fun x => x / (W : ℚ))).take (tensor_numel p) ::
    unflatten_sizes _ [] = _
  rw [← hA, List.take_length]
  rfl

/-- Flushing a multi-tensor bucket produces exactly the per-tensor
cross-rank averages: one collective over the flattened concatenation,
then scattering back, equals one collective per tensor. -/
theorem allreduce_and_copy_split (W : Nat) (hW : 1 ≤ W) (post : Bool)
    (f : ℚ) (hf : f ≠ 0) :
    ∀ small : List DTensor,
      (∀ p ∈ small, ∀ r < W, (p r).length = tensor_numel p) →
      allreduce_and_copy W post true f small =
        (small.map (fun t => allreduce_and_copy W post true f [t])).flatten := by
  intro small
  induction small with
  | nil => intro _; rfl
  | cons p rest ih =>
    intro hsh
    have hWq : ((W : Nat) : ℚ) ≠ 0 := Nat.cast_ne_zero.mpr (by omega)
    have hp : ∀ r < W, (p r).length = tensor_numel p :=
      hsh p (List.mem_cons_self _ _)
    have hrest : ∀ q ∈ rest, ∀ r < W, (q r).length = tensor_numel q :=
      fun q hq => hsh q (List.mem_cons_of_mem _ hq)
    have hA : ((pointwiseSum ((List.range W).map p)).map
        (fun x => x / (W : ℚ))).length = tensor_numel p := by
      rw [List.length_map]
      exact rank_sum_length W hW p hp
    simp only [List.map_cons, List.flatten_cons]
    rw [allreduce_and_copy_single W hW post f hf p hp, ← ih hrest]
    unfold allreduce_and_copy
    rw [allreduce_bucket_avg post f _ hf hWq,
      allreduce_bucket_avg post f _ hf hWq,
      psum_views_cons W p rest hp, List.map_append]
    simp only [List.map_cons, unflatten_sizes, List.singleton_append]
    congr 1
    · rw [← hA]
      exact List.take_left _ _
    · rw [← hA, List.drop_left]

/-- Invariant of the accumulate/flush loop: whatever is already in the
small bucket plus whatever remains comes out as the per-tensor
averages, in order. -/
theorem allreduce_no_retain_go_spec (W : Nat) (hW : 1 ≤ W) (post : Bool)
    (f : ℚ) (hf : f ≠ 0) (thr : Nat) :
    ∀ (rest small : List DTensor) (acc : Nat),
      (∀ p ∈ small ++ rest, ∀ r < W, (p r).length = tensor_numel p) →
      allreduce_no_retain_go W post true f thr rest small acc =
        (small.map (fun t => allreduce_and_copy W post true f [t])).flatten
          ++
        (rest.map (fun t => allreduce_and_copy W post true f [t])).flatten := by
  intro rest
  induction rest with
  | nil =>
    intro small acc hsh
    simp only [allreduce_no_retain_go]
    cases small with
    | nil => rfl
    | cons q qs =>
      rw [allreduce_and_copy_split W hW post f hf (q :: qs)
        (by intro x hx; exact hsh x (by simpa using hx))]
      simp
  | cons t rest ih =>
    intro small acc hsh
    simp only [allreduce_no_retain_go]
    split_ifs with hflush
    · have h1 : ∀ p ∈ small ++ [t], ∀ r < W,
          (p r).length = tensor_numel p := by
        intro x hx
        apply hsh
        simp only [List.mem_append, List.mem_cons, List.mem_singleton] at hx ⊢
        tauto
      have h2 : ∀ p ∈ ([] : List DTensor) ++ rest, ∀ r < W,
          (p r).length = tensor_numel p := by
        intro x hx
        apply hsh
        simp only [List.nil_append, List.mem_append, List.mem_cons] at hx ⊢
        tauto
      rw [allreduce_and_copy_split W hW post f hf (small ++ [t]) h1,
        ih [] 0 h2]
      simp [List.map_append, List.flatten_append, List.append_assoc]
    · have h3 : ∀ p ∈ (small ++ [t]) ++ rest, ∀ r < W,
          (p r).length = tensor_numel p := by
        intro x hx
        apply hsh
        simp only [List.mem_append, List.mem_cons, List.mem_singleton] at hx ⊢
        tauto
      rw [ih (small ++ [t]) (acc + tensor_numel t) h3]
      simp [List.map_append, List.flatten_append, List.append_assoc]

/-- C8: the bucketed reduction (`allreduce_no_retain`, flushing when
the accumulated element count exceeds the threshold and flushing the
final bucket) leaves every tensor with exactly the same averaged value
as a naive reduction issuing one collective call per tensor — under
exact arithmetic, bucketing changes only grouping. -/
theorem C8_bucketed_eq_naive (W : Nat) (post : Bool) (f : ℚ) (thr : Nat)
    (bucket : List DTensor) (hW : 1 ≤ W) (hf : f ≠ 0)
    (hshape : ∀ p ∈ bucket, ∀ r < W, (p r).length = tensor_numel p) :
    allreduce_no_retain W post true f bucket thr =
      naive_reduce W post true f bucket := by
  unfold allreduce_no_retain naive_reduce
  rw [allreduce_no_retain_go_spec W hW post f hf thr bucket [] 0
    (by simpa using hshape)]
  rfl

/-- C8 witness: one rank, three tensors, threshold 2 — the loop
flushes a two-tensor bucket mid-way and the final single tensor. -/
theorem C8_bucketed_eq_naive_witness :
    1 ≤ 1 ∧ (1 : ℚ) ≠ 0 ∧
    (∀ p ∈ ([fun _ => [1, 2], fun _ => [3], fun _ => [4, 5]] :
        List DTensor), ∀ r < 1, (p r).length = tensor_numel p) ∧
    allreduce_no_retain 1 false true 1
        [fun _ => [1, 2], fun _ => [3], fun _ => [4, 5]] 2 =
      naive_reduce 1 false true 1
        [fun _ => [1, 2], fun _ => [3], fun _ => [4, 5]] :=
  ⟨by decide, by decide,
   by intro p hp; fin_cases hp <;> (intro r hr; rfl),
   C8_bucketed_eq_naive 1 false 1 2
     [fun _ => [1, 2], fun _ => [3], fun _ => [4, 5]]
     (by decide) (by decide)
     (by intro p hp; fin_cases hp <;> (intro r hr; rfl))⟩

end DeepSpeedLight
